import Mathlib

/-!
Verification of the Go memcached loader (`main.go`).

Shallow embedding conventions:
* Go strings are lists of characters (`Str`); `str` injects Lean string
  literals.  `strings.Split` with a one-character separator is `splitChar`.
* Go `float64` values are modelled exactly over `ℚ`; every comparison the
  claims mention is exact at the values involved, so no rounding issue
  arises.
* `strconv.Atoi` / `strconv.ParseFloat` are modelled on the decimal
  fragment of their grammar (optional sign, digits, fraction, exponent);
  hex floats, `inf`/`nan` and range clamping are not modelled.  Both
  return `Option`; the call sites of `main.go` discard the error, which
  the embedding mirrors with `Option.getD 0`.
* A Go `map[string]int` is an association list; a *nil* map is `none` in
  `Option StatsMap` (reads of a nil map yield the zero value, writes
  panic).
-/

set_option maxRecDepth 8000

attribute [local semireducible] Rat.inv Rat.mul Rat.add Rat.sub

namespace MemcLoad

/-- Go strings, as lists of characters. -/
abbrev Str := List Char

/-- Inject a Lean string literal into the model. -/
def str (s : String) : Str := s.data

/-- Auxiliary for `splitChar`: `acc` is the current field, reversed. -/
def splitCharAux (sep : Char) : List Char → List Char → List Str
  | [], acc => [acc.reverse]
  | c :: rest, acc =>
    if c = sep then acc.reverse :: splitCharAux sep rest []
    else splitCharAux sep rest (c :: acc)

/-- `strings.Split s sep` for a one-character separator `sep`.
Like the Go function it returns `[""]` on the empty string and keeps
empty fields. -/
def splitChar (sep : Char) (s : Str) : List Str := splitCharAux sep s []

/-- Is `c` a decimal digit? -/
def isDigit (c : Char) : Bool := '0' ≤ c && c ≤ '9'

/-- Numeric value of a digit character. -/
def digitVal (c : Char) : ℕ := c.toNat - '0'.toNat

/-- Consume leading digits, returning (value, number of digits, rest). -/
def takeDigitsAux : List Char → ℕ → ℕ → ℕ × ℕ × List Char
  | [], v, n => (v, n, [])
  | c :: rest, v, n =>
    if isDigit c then takeDigitsAux rest (10 * v + digitVal c) (n + 1)
    else (v, n, c :: rest)

/-- Consume leading digits of `s`. -/
def takeDigits (s : List Char) : ℕ × ℕ × List Char := takeDigitsAux s 0 0

/-- Consume an optional sign, returning (isNegative, rest). -/
def parseSign : List Char → Bool × List Char
  | '-' :: rest => (true, rest)
  | '+' :: rest => (false, rest)
  | s => (false, s)

/-- `strconv.Atoi`: an optional sign followed by at least one digit and
nothing else; `none` models a non-nil error. -/
def atoi? (s : Str) : Option ℤ :=
  let p := parseSign s
  let d := takeDigits p.2
  if d.2.1 = 0 ∨ d.2.2 ≠ [] then none
  else some (if p.1 then -(d.1 : ℤ) else (d.1 : ℤ))

/-- The value `main.go` keeps from `strconv.Atoi`: the error is discarded,
so a failed parse contributes `0`. -/
def atoiVal (s : Str) : ℤ := (atoi? s).getD 0

/-- Optional exponent part (`e`/`E`, optional sign, digits) ending the
string; `some 0` when the string is empty. -/
def parseExp? : List Char → Option ℤ
  | [] => some 0
  | c :: rest =>
    if c = 'e' ∨ c = 'E' then
      let p := parseSign rest
      let d := takeDigits p.2
      if d.2.1 = 0 ∨ d.2.2 ≠ [] then none
      else some (if p.1 then -(d.1 : ℤ) else (d.1 : ℤ))
    else none

/-- `strconv.ParseFloat` on the decimal fragment of its grammar, with the
result represented exactly in `ℚ`. -/
def parseFloat? (s : Str) : Option ℚ :=
  let p := parseSign s
  let ip := takeDigits p.2
  let frac : ℕ × ℕ × List Char :=
    match ip.2.2 with
    | '.' :: s2 => takeDigits s2
    | other => (0, 0, other)
  if ip.2.1 = 0 ∧ frac.2.1 = 0 then none
  else
    match parseExp? frac.2.2 with
    | none => none
    | some e =>
      let mag : ℚ := ((ip.1 : ℚ) + (frac.1 : ℚ) / (10 : ℚ) ^ frac.2.1) * (10 : ℚ) ^ e
      some (if p.1 then -mag else mag)

/-- The value `main.go` keeps from `strconv.ParseFloat`: the error is
discarded, so a failed parse contributes `0`. -/
def parseFloatVal (s : Str) : ℚ := (parseFloat? s).getD 0

/-- Go's `uint32(x)` conversion from `int`. -/
def u32 (z : ℤ) : ℕ := (z % 4294967296).toNat

/-- The `appsInstalled` struct of `main.go`. -/
structure AppsInstalled where
  devType : Str
  devId : Str
  lat : ℚ
  lon : ℚ
  apps : List ℕ
  fileName : Str
deriving DecidableEq, Repr

/-- The only parse error of `main.go`: `ErrParseLine`. -/
inductive ParseErr
  | canNotParseLine
deriving DecidableEq, Repr

/-- `parseLine` from `main.go` (lines 37-64).  Returns the Go pair
(value, error).  Note the source's line 54: `Lon` is parsed from
`lineParts[2]`, the same field as `Lat`. -/
def parseLine (line : Str) (filename : Str) : AppsInstalled × Option ParseErr :=
  let lineParts := splitChar '\t' line
  if lineParts.length ≠ 5 then
    (⟨[], [], 0, 0, [0], filename⟩, some .canNotParseLine)
  else if lineParts.getD 0 [] = [] ∨ lineParts.getD 1 [] = [] then
    (⟨[], [], 0, 0, [0], filename⟩, some .canNotParseLine)
  else
    let strApps := splitChar ',' (lineParts.getD 4 [])
    let apps := strApps.map (fun v => u32 (atoiVal v))
    let lat := parseFloatVal (lineParts.getD 2 [])
    let lon := parseFloatVal (lineParts.getD 2 [])
    (⟨lineParts.getD 0 [], lineParts.getD 1 [], lat, lon, apps, filename⟩, none)

/-! ### The Delivery Stats Registry (`fileStats`, lines 29-32) -/

/-- The underlying `map[string]int`, as an association list. -/
abbrev StatsMap := List (Str × ℤ)

/-- Association-list read with Go's zero-value default. -/
def mapLookup : StatsMap → Str → ℤ
  | [], _ => 0
  | (k, v) :: rest, key => if k = key then v else mapLookup rest key

/-- Association-list `delete`. -/
def mapErase : StatsMap → Str → StatsMap
  | [], _ => []
  | (k, v) :: rest, key =>
    if k = key then mapErase rest key else (k, v) :: mapErase rest key

/-- Association-list `m[key] += 1` (creates the entry if absent). -/
def mapIncr : StatsMap → Str → StatsMap
  | [], key => [(key, 1)]
  | (k, v) :: rest, key =>
    if k = key then (k, v + 1) :: rest else (k, v) :: mapIncr rest key

/-- The `fileStats` struct: `stats : Option StatsMap`, where `none` models
a Go *nil* map (the mutex is not represented; the embedding serialises the
lock-protected blocks). -/
structure FileStats where
  stats : Option StatsMap
deriving DecidableEq, Repr

/-- `readFile` lines 106-109: under the lock, read `stats.stats[filename]`
and `delete` the entry.  A read of a nil or missing entry yields `0`;
`delete` on a nil map is a no-op — both as in Go. -/
def takeAndClear (fs : FileStats) (filename : Str) : ℤ × FileStats :=
  match fs.stats with
  | none => (0, ⟨none⟩)
  | some m => (mapLookup m filename, ⟨some (mapErase m filename)⟩)

/-- `writeInMemcached` line 159: `stats.stats[val.FileName] += 1`.
An increment-assignment into a nil map panics at run time, modelled by
`none`. -/
def recordFailure (fs : FileStats) (filename : Str) : Option FileStats :=
  match fs.stats with
  | none => none
  | some m => some ⟨some (mapIncr m filename)⟩

/-- `main` line 201: `stats := fileStats{}` — the zero value, whose map is
never allocated. -/
def mainStats : FileStats := ⟨none⟩

/-! ### The Sink Writer (`writeInMemcached`, lines 134-164) -/

/-- The retry loop of lines 147-154.  `attempt i = true` means the `i`-th
`memClient.Set` call returns a nil error.  Returns (number of attempts
made, `err != nil` after the loop).  The inter-attempt `time.Sleep` has no
observable effect in the model. -/
def setLoopAux (attempt : ℕ → Bool) : ℕ → ℕ → ℕ × Bool
  | _, 0 => (0, false)
  | i, fuel + 1 =>
    if attempt i then (1, false)
    else if fuel = 0 then (1, true)
    else
      let p := setLoopAux attempt (i + 1) fuel
      (p.1 + 1, p.2)

/-- The retry loop started at attempt `0` with `maxRetry` iterations.
When `maxRetry = 0` the loop body never runs and `err` keeps its zero
value `nil`. -/
def setLoop (attempt : ℕ → Bool) (maxRetry : ℕ) : ℕ × Bool :=
  setLoopAux attempt 0 maxRetry

/-- Observable outcome of one iteration of the `for val := range channel`
body of `writeInMemcached` (lines 142-163). -/
structure WriteOutcome where
  attemptsMade : ℕ
  failed : Bool
  statsAfter : Option FileStats
deriving DecidableEq, Repr

/-- One iteration of the Sink Writer loop on record `rec`: run the retry
loop, and on a non-nil final error record a failure in the registry keyed
by `rec.fileName` (lines 156-161).  `statsAfter = none` models the panic
of `recordFailure` on a nil map. -/
def writeOneRecord (attempt : ℕ → Bool) (maxRetry : ℕ) (fs : FileStats)
    (rec : AppsInstalled) : WriteOutcome :=
  let p := setLoop attempt maxRetry
  if p.2 then ⟨p.1, true, recordFailure fs rec.fileName⟩
  else ⟨p.1, false, some fs⟩

/-! ### The Ingestion Worker (`readFile`, lines 66-132) -/

/-- The threshold `NormalErrRate = 0.01` (line 34). -/
def NormalErrRate : ℚ := 1 / 100

/-- The three dispositions logged by `readFile` lines 113-122. -/
inductive Disposition
  | allErrors
  | success
  | highErrRate
deriving DecidableEq, Repr

/-- Lines 111-122: fold the delivery-failure count into the local
counters, then decide the disposition. -/
def reconcile (nErrors nSuccess nSendingErrors : ℤ) : Disposition :=
  let nE := nErrors + nSendingErrors
  let nS := nSuccess - nSendingErrors
  if nS = 0 then .allErrors
  else if (nE : ℚ) / (nS : ℚ) < NormalErrRate then .success
  else .highErrRate

/-- Result of the scanner loop of lines 90-101.  `blocked` models a send
on `channels[apps.DevType]` for a `DevType` with no entry in the map: the
zero value of a channel is nil, and a send on a nil channel blocks
forever, so the loop never finishes. -/
inductive ScanOutcome
  | blocked (nSuccess nErrors : ℤ) (devType : Str)
  | finished (nSuccess nErrors : ℤ)
deriving DecidableEq, Repr

/-- The scanner loop: decode each line; on a decode error increment
`nErrors` and continue; on success increment `nSuccess` and send on the
channel for the record's `DevType` (blocking forever when that channel is
missing from `channels`, whose key set is `chanKeys`). -/
def scanLoop (chanKeys : List Str) (filename : Str) :
    List Str → ℤ → ℤ → ScanOutcome
  | [], s, e => .finished s e
  | line :: rest, s, e =>
    match parseLine line filename with
    | (_, some _) => scanLoop chanKeys filename rest s (e + 1)
    | (apps, none) =>
      if apps.devType ∈ chanKeys then scanLoop chanKeys filename rest (s + 1) e
      else .blocked (s + 1) e apps.devType

/-- Observable outcome of one `readFile` worker whose file opened and
decompressed successfully. -/
structure WorkerResult where
  blocked : Bool
  disposition : Option Disposition
  renameCalls : ℕ
  renameErrLogged : Bool
  done : Bool
  statsAfter : FileStats
  nSendingErrors : Option ℤ
deriving DecidableEq, Repr

/-- `readFile` after a successful open: scan all lines, then (lines
106-130) read-and-clear the registry entry, compute the disposition,
rename the file (`renameFails` tells whether `os.Rename` errors, which is
only logged), and reach `wg.Done()`.  A worker blocked on a nil channel
never reaches any of that. -/
def runWorker (chanKeys : List Str) (filename : Str) (lines : List Str)
    (fs : FileStats) (renameFails : Bool) : WorkerResult :=
  match scanLoop chanKeys filename lines 0 0 with
  | .blocked _ _ _ => ⟨true, none, 0, false, false, fs, none⟩
  | .finished s e =>
    let p := takeAndClear fs filename
    ⟨false, some (reconcile e s p.1), 1, renameFails, true, p.2, some p.1⟩

/-! ### The Orchestrator (`main`, lines 166-224) -/

/-- The key set of the `channels` map built in `main` lines 194-210: one
channel per destination type. -/
def mainChanKeys : List Str :=
  [str "idfa", str "gaid", str "adid", str "dvid"]

/-- Observable outcome of a whole run. -/
structure ProcResult where
  exited : Bool
  archived : List Str
deriving DecidableEq, Repr

/-- One legal linearization of `main`'s concurrent workers: files are
processed one after another.  A worker whose file fails to open or
decompress (contents `none`) calls `logger.Fatal` (lines 74-82), i.e.
`os.Exit(1)`: the whole process terminates and the remaining files are
abandoned.  Otherwise the worker runs to completion; `archived` collects
the files it renamed.  The registry is `mainStats` and renames succeed. -/
def runProcessSeq (chanKeys : List Str) :
    List (Str × Option (List Str)) → ProcResult
  | [] => ⟨false, []⟩
  | (_, none) :: _ => ⟨true, []⟩
  | (fn, some lines) :: rest =>
    let w := runWorker chanKeys fn lines mainStats false
    let r := runProcessSeq chanKeys rest
    ⟨r.exited, (if w.renameCalls = 1 then [fn] else []) ++ r.archived⟩

/-! ### The scan-end / delivery race (`readFile` vs `writeInMemcached`) -/

/-- Shared state for the race between one Ingestion Worker and one Sink
Writer: the destination channel (records carry their source file), the
registry (assumed allocated here, isolating the ordering question from
the nil-map defect of C7), and the failure count the worker read at
reconciliation, if it has read it yet. -/
structure RaceState where
  queue : List Str
  registry : StatsMap
  reconciled : Option ℤ
deriving DecidableEq, Repr

/-- Atomic actions of the two tasks.  `wSend`: the worker's blocking send
of a decoded record (line 99).  `wTake`: the worker's read-and-clear of
its registry entry (lines 106-109), which the code performs right after
the scanner loop, with no wait for outstanding deliveries.  `sDeliver`:
the Sink Writer receives one record, exhausts all retries, and records
the failure (lines 142-161). -/
inductive RaceAct
  | wSend
  | wTake
  | sDeliver
deriving DecidableEq, Repr

/-- Interleaving semantics for one worker on file `fn` and one Sink
Writer whose every delivery attempt fails. -/
def raceStep (fn : Str) (s : RaceState) : RaceAct → RaceState
  | .wSend => ⟨s.queue ++ [fn], s.registry, s.reconciled⟩
  | .wTake => ⟨s.queue, mapErase s.registry fn, some (mapLookup s.registry fn)⟩
  | .sDeliver =>
    match s.queue with
    | [] => s
    | r :: rest => ⟨rest, mapIncr s.registry r, s.reconciled⟩

/-- Run a schedule from the empty initial state. -/
def raceRun (fn : Str) (acts : List RaceAct) : RaceState :=
  acts.foldl (raceStep fn) ⟨[], [], none⟩

/-! ### Helper lemmas -/

theorem setLoopAux_fst_le (attempt : ℕ → Bool) :
    ∀ (fuel i : ℕ), (setLoopAux attempt i fuel).1 ≤ fuel := by
  intro fuel
  induction fuel with
  | zero => intro i; simp [setLoopAux]
  | succ n ih =>
    intro i
    simp only [setLoopAux]
    split_ifs with h1 h2
    · exact Nat.succ_le_succ (Nat.zero_le n)
    · exact Nat.succ_le_succ (Nat.zero_le n)
    · exact Nat.succ_le_succ (ih (i + 1))

theorem setLoopAux_snd_iff (attempt : ℕ → Bool) :
    ∀ (fuel i : ℕ), 1 ≤ fuel →
      ((setLoopAux attempt i fuel).2 = true ↔
        ∀ j < fuel, attempt (i + j) = false) := by
  intro fuel
  induction fuel with
  | zero => intro i h; exact absurd h (by omega)
  | succ n ih =>
    intro i _
    cases hb : attempt i with
    | true =>
      have hv : setLoopAux attempt i (n + 1) = (1, false) := by
        simp [setLoopAux, hb]
      rw [hv]
      constructor
      · intro hc; exact absurd hc (by simp)
      · intro hall
        have h0 := hall 0 (by omega)
        rw [Nat.add_zero, hb] at h0
        exact absurd h0 (by simp)
    | false =>
      by_cases h2 : n = 0
      · subst h2
        have hv : setLoopAux attempt i 1 = (1, true) := by
          simp [setLoopAux, hb]
        rw [hv]
        refine ⟨fun _ j hj => ?_, fun _ => rfl⟩
        have hj0 : j = 0 := by omega
        subst hj0
        rw [Nat.add_zero]
        exact hb
      · have hv : setLoopAux attempt i (n + 1) =
            ((setLoopAux attempt (i + 1) n).1 + 1,
              (setLoopAux attempt (i + 1) n).2) := by
          simp [setLoopAux, hb, h2]
        rw [hv]
        rw [show ((setLoopAux attempt (i + 1) n).1 + 1,
            (setLoopAux attempt (i + 1) n).2).2 =
            (setLoopAux attempt (i + 1) n).2 from rfl]
        rw [ih (i + 1) (by omega)]
        constructor
        · intro hall j hj
          match j, hj with
          | 0, _ => rw [Nat.add_zero]; exact hb
          | j + 1, hj =>
            have hw := hall j (by omega)
            have e : i + 1 + j = i + (j + 1) := by omega
            rwa [e] at hw
        · intro hall j hj
          have hw := hall (j + 1) (by omega)
          have e : i + (j + 1) = i + 1 + j := by omega
          rwa [e] at hw

theorem setLoopAux_early_attempts_fail (attempt : ℕ → Bool) :
    ∀ (fuel i j : ℕ), j + 1 < (setLoopAux attempt i fuel).1 →
      attempt (i + j) = false := by
  intro fuel
  induction fuel with
  | zero => intro i j h; simp [setLoopAux] at h
  | succ n ih =>
    intro i j h
    cases hb : attempt i with
    | true => simp [setLoopAux, hb] at h
    | false =>
      by_cases h2 : n = 0
      · subst h2; simp [setLoopAux, hb] at h
      · simp only [setLoopAux, hb, Bool.false_eq_true, if_false, if_neg h2] at h
        match j with
        | 0 => rw [Nat.add_zero]; exact hb
        | j + 1 =>
          have hw := ih (i + 1) j (by omega)
          have e : i + 1 + j = i + (j + 1) := by omega
          rwa [e] at hw

theorem mapLookup_mapIncr_self (m : StatsMap) (k : Str) :
    mapLookup (mapIncr m k) k = mapLookup m k + 1 := by
  induction m with
  | nil => simp [mapIncr, mapLookup]
  | cons p rest ih =>
    obtain ⟨k0, v0⟩ := p
    by_cases h : k0 = k
    · simp [mapIncr, mapLookup, h]
    · simp [mapIncr, mapLookup, h, ih]

theorem mapLookup_mapIncr_ne (m : StatsMap) (k k' : Str) (h : k' ≠ k) :
    mapLookup (mapIncr m k) k' = mapLookup m k' := by
  have h2 : ¬ k = k' := fun e => h e.symm
  induction m with
  | nil => simp [mapIncr, mapLookup, h2]
  | cons p rest ih =>
    obtain ⟨k0, v0⟩ := p
    by_cases h0 : k0 = k
    · subst h0
      simp [mapIncr, mapLookup, h2]
    · by_cases h1 : k0 = k'
      · simp [mapIncr, mapLookup, h0, h1, h]
      · simp [mapIncr, mapLookup, h0, h1, ih]

theorem parseLine_ok_record (line fn : Str)
    (hok : (parseLine line fn).2 = none) :
    (parseLine line fn).1 =
      ⟨(splitChar '\t' line).getD 0 [], (splitChar '\t' line).getD 1 [],
        parseFloatVal ((splitChar '\t' line).getD 2 []),
        parseFloatVal ((splitChar '\t' line).getD 2 []),
        (splitChar ',' ((splitChar '\t' line).getD 4 [])).map
          (fun v => u32 (atoiVal v)), fn⟩ := by
  simp only [parseLine] at hok ⊢
  split_ifs at hok ⊢
  all_goals simp_all

/-! ### The claims -/

/-- C1: the code reads and clears the registry entry right after the
scanner loop, without waiting for outstanding deliveries.  Under the
legal schedule "worker sends its one record; worker performs the
read-and-clear; the Sink Writer then exhausts retries and records the
failure", the record is still in the queue (a delivery is outstanding)
when the worker reads the registry: the worker reconciles with `0`
delivery failures and the terminal failure is recorded into the registry
after the worker's entry was read and removed, contradicting the claimed
invariant. -/
theorem c1_failure_recorded_after_take :
    (raceRun (str "f") [.wSend]).queue = [str "f"] ∧
    (raceRun (str "f") [.wSend, .wTake]).reconciled = some 0 ∧
    (raceRun (str "f") [.wSend, .wTake, .sDeliver]).reconciled = some 0 ∧
    mapLookup (raceRun (str "f") [.wSend, .wTake, .sDeliver]).registry
      (str "f") = 1 := by decide

/-- C2: on the line `idfa<TAB>dev<TAB>1.5<TAB>2.5<TAB>42` decoding
succeeds, but the Record's `Lon` is `1.5` — parsed from the third field,
the same one as `Lat` (`main.go` line 54) — and not `2.5`, the value of
the fourth field, as the claim requires. -/
theorem c2_lon_from_latitude_field :
    (parseLine (str "idfa\tdev\t1.5\t2.5\t42") (str "f")).2 = none ∧
    (parseLine (str "idfa\tdev\t1.5\t2.5\t42") (str "f")).1.lat = 3 / 2 ∧
    (parseLine (str "idfa\tdev\t1.5\t2.5\t42") (str "f")).1.lon = 3 / 2 ∧
    parseFloatVal (str "2.5") = 5 / 2 ∧
    (parseLine (str "idfa\tdev\t1.5\t2.5\t42") (str "f")).1.lon ≠ 5 / 2 := by
  decide

/-- C3 counterexample: with input files `a.tsv.gz` (cannot be opened) and
`b.tsv.gz` (well-formed), the run exits the whole process and archives
nothing, although `b.tsv.gz` on its own is fully processed and archived:
the process does not continue running the workers for the other files. -/
theorem c3_fatal_kills_other_files :
    runProcessSeq mainChanKeys
      [(str "a.tsv.gz", none),
       (str "b.tsv.gz", some [str "idfa\tdev\t1.0\t2.0\t1"])] =
      ⟨true, []⟩ ∧
    runProcessSeq mainChanKeys
      [(str "b.tsv.gz", some [str "idfa\tdev\t1.0\t2.0\t1"])] =
      ⟨false, [str "b.tsv.gz"]⟩ := by decide

/-- C3 amended: when a file cannot be opened or decompressed, the worker
calls `logger.Fatal`, which logs the error and exits the entire process;
the files after it in the schedule are abandoned, so the archived set is
exactly what the workers before the failing one had archived. -/
theorem c3_open_error_exits_process (chanKeys : List Str)
    (pre : List (Str × Option (List Str))) (fn : Str)
    (post : List (Str × Option (List Str)))
    (h : ∀ p ∈ pre, p.2 ≠ none) :
    (runProcessSeq chanKeys (pre ++ (fn, none) :: post)).exited = true ∧
    (runProcessSeq chanKeys (pre ++ (fn, none) :: post)).archived =
      (runProcessSeq chanKeys pre).archived := by
  induction pre with
  | nil => simp [runProcessSeq]
  | cons p rest ih =>
    obtain ⟨pfn, pc⟩ := p
    have hp : pc ≠ none := h (pfn, pc) (by simp)
    match pc, hp with
    | some plines, _ =>
      have ihr := ih (fun q hq => h q (List.mem_cons_of_mem _ hq))
      simp only [List.cons_append, runProcessSeq]
      exact ⟨ihr.1, by simp only [List.append_eq]; rw [ihr.2]⟩

/-- C3 amended, witness at a concrete input. -/
theorem c3_open_error_exits_process_witness :
    (∀ p ∈ ([] : List (Str × Option (List Str))), p.2 ≠ none) ∧
    ((runProcessSeq mainChanKeys ([] ++ (str "a.tsv.gz", none) :: [])).exited
        = true ∧
      (runProcessSeq mainChanKeys
          ([] ++ (str "a.tsv.gz", none) :: [])).archived =
        (runProcessSeq mainChanKeys []).archived) :=
  ⟨by simp, c3_open_error_exits_process mainChanKeys [] (str "a.tsv.gz") []
    (by simp)⟩

/-- C7: `main` constructs the registry as the zero value `fileStats{}`,
whose map is nil.  `TakeAndClear` (the read-and-delete of `readFile`
lines 106-109) on the nil map returns `0` and leaves the registry
unchanged, but `RecordFailure` (the increment-assignment of
`writeInMemcached` line 159) panics, so a Sink Writer that exhausts all
retries crashes when it records the failure. -/
theorem c7_nil_registry :
    mainStats.stats = none ∧
    (∀ fn : Str, takeAndClear mainStats fn = (0, mainStats)) ∧
    (∀ fn : Str, recordFailure mainStats fn = none) ∧
    (∀ rec : AppsInstalled,
      (writeOneRecord (fun _ => false) 3 mainStats rec).statsAfter = none) :=
  ⟨rfl, fun _ => rfl, fun _ => rfl, fun _ => rfl⟩

/-- C8: the line `foo<TAB>dev<TAB>1.0<TAB>2.0<TAB>1` decodes successfully,
but its destination type `foo` has no channel in `main`'s routing map, so
the worker sends on a nil channel and blocks forever: the file is never
reconciled (no disposition), never archived (no rename), and the worker
never reaches `wg.Done()`. -/
theorem c8_unknown_devtype_blocks :
    ∃ line : Str,
      (parseLine line (str "f.tsv.gz")).2 = none ∧
      (parseLine line (str "f.tsv.gz")).1.devType ∉ mainChanKeys ∧
      runWorker mainChanKeys (str "f.tsv.gz") [line] mainStats false =
        ⟨true, none, 0, false, false, mainStats, none⟩ :=
  ⟨str "foo\tdev\t1.0\t2.0\t1", by decide⟩

/-- C4: reconciliation folds the delivery failures into the counters and
computes `adjustedSuccess = decodeSuccess − deliveryFailures`; when it is
`0` the disposition is the unconditional failure `allErrors`, otherwise
the disposition is `success` iff
`(decodeErrors + deliveryFailures) / adjustedSuccess < NormalErrRate`.
At `decodeErrors = 2, decodeSuccess = 200, deliveryFailures = 0` the rate
is exactly `0.01`, not below the threshold, so the load fails; at
`decodeErrors = 1` the rate is `0.005` and the load succeeds. -/
theorem c4_reconcile_arithmetic (e s f : ℤ) :
    (s - f = 0 → reconcile e s f = .allErrors) ∧
    (s - f ≠ 0 →
      (reconcile e s f = .success ↔
        ((e + f : ℤ) : ℚ) / ((s - f : ℤ) : ℚ) < NormalErrRate)) ∧
    reconcile 2 200 0 = .highErrRate ∧
    reconcile 1 200 0 = .success := by
  refine ⟨fun h => by simp [reconcile, h], fun h => ?_, by decide, by decide⟩
  simp only [reconcile]
  rw [if_neg h]
  split_ifs with h2
  · exact iff_of_true rfl h2
  · exact iff_of_false (by decide) h2

/-- C4, witness at the concrete inputs of the claim. -/
theorem c4_reconcile_arithmetic_witness :
    ((200 : ℤ) - 0 = 0 → reconcile 2 200 0 = .allErrors) ∧
    ((200 : ℤ) - 0 ≠ 0 →
      (reconcile 2 200 0 = .success ↔
        (((2 : ℤ) + 0 : ℤ) : ℚ) / (((200 : ℤ) - 0 : ℤ) : ℚ) < NormalErrRate)) ∧
    reconcile 2 200 0 = .highErrRate ∧
    reconcile 1 200 0 = .success :=
  c4_reconcile_arithmetic 2 200 0

/-- C5: for one Record, the Sink Writer makes at most `maxRetry` delivery
attempts and every attempt before the last one made has failed (it stops
on the first success); the final error is non-nil iff all `maxRetry`
attempts fail; on success no registry failure is recorded, and on
exhausting retries exactly one failure is recorded, keyed by the Record's
source file (its count rises by one and no other key changes). -/
theorem c5_bounded_retry_single_failure (attempt : ℕ → Bool) (maxRetry : ℕ)
    (m : StatsMap) (rec : AppsInstalled) (hmr : 1 ≤ maxRetry) :
    (writeOneRecord attempt maxRetry ⟨some m⟩ rec).attemptsMade ≤ maxRetry ∧
    (∀ j : ℕ,
      j + 1 < (writeOneRecord attempt maxRetry ⟨some m⟩ rec).attemptsMade →
      attempt j = false) ∧
    ((writeOneRecord attempt maxRetry ⟨some m⟩ rec).failed = true ↔
      ∀ j < maxRetry, attempt j = false) ∧
    ((writeOneRecord attempt maxRetry ⟨some m⟩ rec).failed = false →
      (writeOneRecord attempt maxRetry ⟨some m⟩ rec).statsAfter =
        some ⟨some m⟩) ∧
    ((writeOneRecord attempt maxRetry ⟨some m⟩ rec).failed = true →
      (writeOneRecord attempt maxRetry ⟨some m⟩ rec).statsAfter =
        some ⟨some (mapIncr m rec.fileName)⟩ ∧
      mapLookup (mapIncr m rec.fileName) rec.fileName =
        mapLookup m rec.fileName + 1 ∧
      ∀ k : Str, k ≠ rec.fileName →
        mapLookup (mapIncr m rec.fileName) k = mapLookup m k) := by
  have hle := setLoopAux_fst_le attempt maxRetry 0
  have hiff := setLoopAux_snd_iff attempt maxRetry 0 hmr
  cases hp : (setLoopAux attempt 0 maxRetry).2 with
  | true =>
    have hw : writeOneRecord attempt maxRetry ⟨some m⟩ rec =
        ⟨(setLoopAux attempt 0 maxRetry).1, true,
          some ⟨some (mapIncr m rec.fileName)⟩⟩ := by
      simp [writeOneRecord, setLoop, hp, recordFailure]
    rw [hw]
    refine ⟨hle, ?_, ?_, ?_, ?_⟩
    · intro j hj
      have hf := setLoopAux_early_attempts_fail attempt maxRetry 0 j hj
      rwa [Nat.zero_add] at hf
    · refine ⟨fun _ => ?_, fun _ => rfl⟩
      have hall := hiff.mp hp
      intro j hj
      have := hall j hj
      rwa [Nat.zero_add] at this
    · intro hc; exact absurd hc (by simp)
    · intro _
      exact ⟨rfl, mapLookup_mapIncr_self m rec.fileName,
        fun k hk => mapLookup_mapIncr_ne m rec.fileName k hk⟩
  | false =>
    have hw : writeOneRecord attempt maxRetry ⟨some m⟩ rec =
        ⟨(setLoopAux attempt 0 maxRetry).1, false, some ⟨some m⟩⟩ := by
      simp [writeOneRecord, setLoop, hp]
    rw [hw]
    refine ⟨hle, ?_, ?_, fun _ => rfl, ?_⟩
    · intro j hj
      have hf := setLoopAux_early_attempts_fail attempt maxRetry 0 j hj
      rwa [Nat.zero_add] at hf
    · constructor
      · intro hc; exact absurd hc (by simp)
      · intro hall
        have hall0 : ∀ j < maxRetry, attempt (0 + j) = false := by
          intro j hj
          rw [Nat.zero_add]
          exact hall j hj
        rw [hiff.mpr hall0] at hp
        exact absurd hp (by simp)
    · intro hc; exact absurd hc (by simp)

/-- C5, witness: three retries that all fail against an allocated empty
registry. -/
theorem c5_bounded_retry_single_failure_witness :
    1 ≤ 3 ∧
    ((writeOneRecord (fun _ => false) 3 ⟨some []⟩
        ⟨str "idfa", str "d", 0, 0, [0], str "f"⟩).attemptsMade ≤ 3 ∧
      (∀ j : ℕ,
        j + 1 < (writeOneRecord (fun _ => false) 3 ⟨some []⟩
          ⟨str "idfa", str "d", 0, 0, [0], str "f"⟩).attemptsMade →
        (fun _ : ℕ => false) j = false) ∧
      ((writeOneRecord (fun _ => false) 3 ⟨some []⟩
          ⟨str "idfa", str "d", 0, 0, [0], str "f"⟩).failed = true ↔
        ∀ j < 3, (fun _ : ℕ => false) j = false) ∧
      ((writeOneRecord (fun _ => false) 3 ⟨some []⟩
          ⟨str "idfa", str "d", 0, 0, [0], str "f"⟩).failed = false →
        (writeOneRecord (fun _ => false) 3 ⟨some []⟩
          ⟨str "idfa", str "d", 0, 0, [0], str "f"⟩).statsAfter =
          some ⟨some []⟩) ∧
      ((writeOneRecord (fun _ => false) 3 ⟨some []⟩
          ⟨str "idfa", str "d", 0, 0, [0], str "f"⟩).failed = true →
        (writeOneRecord (fun _ => false) 3 ⟨some []⟩
          ⟨str "idfa", str "d", 0, 0, [0], str "f"⟩).statsAfter =
          some ⟨some (mapIncr []
            (⟨str "idfa", str "d", 0, 0, [0], str "f"⟩ :
              AppsInstalled).fileName)⟩ ∧
        mapLookup (mapIncr []
            (⟨str "idfa", str "d", 0, 0, [0], str "f"⟩ :
              AppsInstalled).fileName)
            (⟨str "idfa", str "d", 0, 0, [0], str "f"⟩ :
              AppsInstalled).fileName =
          mapLookup []
            (⟨str "idfa", str "d", 0, 0, [0], str "f"⟩ :
              AppsInstalled).fileName + 1 ∧
        ∀ k : Str,
          k ≠ (⟨str "idfa", str "d", 0, 0, [0], str "f"⟩ :
            AppsInstalled).fileName →
          mapLookup (mapIncr []
              (⟨str "idfa", str "d", 0, 0, [0], str "f"⟩ :
                AppsInstalled).fileName) k = mapLookup [] k)) :=
  ⟨by decide,
    c5_bounded_retry_single_failure (fun _ => false) 3 []
      ⟨str "idfa", str "d", 0, 0, [0], str "f"⟩ (by decide)⟩

/-- C6: decoding fails with the parse error exactly when splitting the
line on the tab delimiter yields a field count other than 5, or an empty
destination-type or device-id field; on such a line the scanner loop
increments the error counter, leaves the success counter unchanged, and
continues with the remaining lines. -/
theorem c6_malformed_iff_and_counts (line fn : Str) (chanKeys : List Str)
    (rest : List Str) (s e : ℤ) :
    ((parseLine line fn).2 = some .canNotParseLine ↔
      ((splitChar '\t' line).length ≠ 5 ∨
        (splitChar '\t' line).getD 0 [] = [] ∨
        (splitChar '\t' line).getD 1 [] = [])) ∧
    ((parseLine line fn).2 = some .canNotParseLine →
      scanLoop chanKeys fn (line :: rest) s e =
        scanLoop chanKeys fn rest s (e + 1)) := by
  constructor
  · simp only [parseLine]
    split_ifs with h1 h2
    · exact iff_of_true rfl (Or.inl h1)
    · exact iff_of_true rfl (Or.inr h2)
    · exact iff_of_false (by simp) (fun hc => hc.elim h1 h2)
  · intro h
    cases hpr : parseLine line fn with
    | mk a err =>
      rw [hpr] at h
      cases err with
      | none => exact absurd h (by simp)
      | some pe => simp [scanLoop, hpr]

/-- C6, witness: a two-field line. -/
theorem c6_malformed_iff_and_counts_witness :
    ((parseLine (str "a\tb") (str "f")).2 = some .canNotParseLine ↔
      ((splitChar '\t' (str "a\tb")).length ≠ 5 ∨
        (splitChar '\t' (str "a\tb")).getD 0 [] = [] ∨
        (splitChar '\t' (str "a\tb")).getD 1 [] = [])) ∧
    ((parseLine (str "a\tb") (str "f")).2 = some .canNotParseLine →
      scanLoop mainChanKeys (str "f") (str "a\tb" :: []) 0 0 =
        scanLoop mainChanKeys (str "f") [] 0 (0 + 1)) :=
  c6_malformed_iff_and_counts (str "a\tb") (str "f") mainChanKeys [] 0 0

/-- C9: on a successfully decoded line, an app-id entry whose numeric
parse fails contributes the value `0` to `apps` (the record keeps one
entry per comma-separated field), and when the floating-point parse of
the scanned coordinate field (`lineParts[2]`, used for both `Lat` and
`Lon`) fails, the record carries `0` there — the record itself is not
rejected. -/
theorem c9_parse_failures_default_to_zero (line fn : Str) (i : ℕ)
    (hok : (parseLine line fn).2 = none) :
    (parseLine line fn).1.apps.length =
      (splitChar ',' ((splitChar '\t' line).getD 4 [])).length ∧
    (atoi? ((splitChar ',' ((splitChar '\t' line).getD 4 [])).getD i []) =
        none →
      (parseLine line fn).1.apps.getD i 0 = 0) ∧
    (parseFloat? ((splitChar '\t' line).getD 2 []) = none →
      (parseLine line fn).1.lat = 0 ∧ (parseLine line fn).1.lon = 0) := by
  rw [parseLine_ok_record line fn hok]
  refine ⟨by simp, fun hai => ?_, fun hfl => ?_⟩
  · show ((splitChar ',' ((splitChar '\t' line).getD 4 [])).map
        (fun v => u32 (atoiVal v))).getD i 0 = 0
    calc ((splitChar ',' ((splitChar '\t' line).getD 4 [])).map
          (fun v => u32 (atoiVal v))).getD i 0
        = ((splitChar ',' ((splitChar '\t' line).getD 4 [])).map
          (fun v => u32 (atoiVal v))).getD i (u32 (atoiVal [])) := rfl
      _ = u32 (atoiVal
          ((splitChar ',' ((splitChar '\t' line).getD 4 [])).getD i [])) :=
        List.getD_map (splitChar ',' ((splitChar '\t' line).getD 4 [])) []
          (fun v => u32 (atoiVal v))
      _ = 0 := by rw [atoiVal, hai]; rfl
  · exact ⟨by show parseFloatVal _ = 0; rw [parseFloatVal, hfl]; rfl,
      by show parseFloatVal _ = 0; rw [parseFloatVal, hfl]; rfl⟩

/-- C9, witness: a line whose coordinate field and first app id both fail
to parse. -/
theorem c9_parse_failures_default_to_zero_witness :
    (parseLine (str "idfa\tdev\tx\ty\tz,5") (str "f")).2 = none ∧
    ((parseLine (str "idfa\tdev\tx\ty\tz,5") (str "f")).1.apps.length =
      (splitChar ','
        ((splitChar '\t' (str "idfa\tdev\tx\ty\tz,5")).getD 4 [])).length ∧
    (atoi? ((splitChar ','
        ((splitChar '\t' (str "idfa\tdev\tx\ty\tz,5")).getD 4 [])).getD 0 []) =
        none →
      (parseLine (str "idfa\tdev\tx\ty\tz,5") (str "f")).1.apps.getD 0 0 =
        0) ∧
    (parseFloat? ((splitChar '\t' (str "idfa\tdev\tx\ty\tz,5")).getD 2 []) =
        none →
      (parseLine (str "idfa\tdev\tx\ty\tz,5") (str "f")).1.lat = 0 ∧
      (parseLine (str "idfa\tdev\tx\ty\tz,5") (str "f")).1.lon = 0)) :=
  ⟨by decide,
    c9_parse_failures_default_to_zero (str "idfa\tdev\tx\ty\tz,5") (str "f")
      0 (by decide)⟩

/-- C10: every worker whose scan finishes archives its file exactly once
(one `os.Rename` call), regardless of the disposition and of whether the
rename fails (the failure is only logged), and the worker always reaches
`wg.Done()`. -/
theorem c10_archive_exactly_once (chanKeys : List Str) (fn : Str)
    (lines : List Str) (fs : FileStats) (renameFails : Bool) (s e : ℤ)
    (h : scanLoop chanKeys fn lines 0 0 = .finished s e) :
    (runWorker chanKeys fn lines fs renameFails).renameCalls = 1 ∧
    (runWorker chanKeys fn lines fs renameFails).done = true ∧
    (runWorker chanKeys fn lines fs renameFails).renameErrLogged =
      renameFails ∧
    (runWorker chanKeys fn lines fs renameFails).disposition =
      some (reconcile e s (takeAndClear fs fn).1) := by
  simp [runWorker, h]

/-- C10, witness: a one-line file whose line is malformed and whose
rename fails. -/
theorem c10_archive_exactly_once_witness :
    scanLoop mainChanKeys (str "f.tsv.gz") [str "x"] 0 0 = .finished 0 1 ∧
    ((runWorker mainChanKeys (str "f.tsv.gz") [str "x"] mainStats
        true).renameCalls = 1 ∧
      (runWorker mainChanKeys (str "f.tsv.gz") [str "x"] mainStats
        true).done = true ∧
      (runWorker mainChanKeys (str "f.tsv.gz") [str "x"] mainStats
        true).renameErrLogged = true ∧
      (runWorker mainChanKeys (str "f.tsv.gz") [str "x"] mainStats
        true).disposition =
        some (reconcile 1 0 (takeAndClear mainStats (str "f.tsv.gz")).1)) :=
  ⟨by decide,
    c10_archive_exactly_once mainChanKeys (str "f.tsv.gz") [str "x"]
      mainStats true 0 1 (by decide)⟩

end MemcLoad
